import Mathlib

/-!
A shallow embedding of the clip-replayer core (`clipper.py`): the label
sanitizer `sanitize_filename_component`, one pass of the ring-buffer
cleanup loop `Recorder._cleanup_loop`, and the assembly operation
`ClipAssembler.save_clip`.  Strings are lists of characters; Python's
Unicode-aware character classes (`\s`, `\w`, `str.strip`) are modelled
exactly for every code point below `0x100` (Basic Latin and Latin-1
Supplement) and treated as plain non-class characters above it.
Python `int(x / y)` on integers truncates toward zero, which `Int.tdiv`
models.  Fallible operations return `Option`, and `save_clip` also
returns the ordered trace of its observable filesystem and process
actions.
-/

namespace Clipper

/-- Python's whitespace class — `str.strip()` and the regex class `\s` —
made exact for every code point below `0x100`: the controls `0x09`–`0x0D`
(tab through carriage return), space, the separator controls
`0x1C`–`0x1F`, NEL (`0x85`) and NBSP (`0xA0`).  Whitespace above the
Latin-1 block (such as U+2000) is not modelled and is treated as an
ordinary character. -/
def pySpace (c : Char) : Bool :=
  (9 ≤ c.toNat && c.toNat ≤ 13) || c == ' ' ||
  (28 ≤ c.toNat && c.toNat ≤ 31) || c.toNat = 0x85 || c.toNat = 0xA0

/-- The alphanumeric characters of the Latin-1 Supplement block
(`str.isalnum` for `0x80 ≤ code point < 0x100`): the letters and numeric
signs `ª ² ³ µ ¹ º ¼ ½ ¾` and the letter ranges `À`–`Ö`, `Ø`–`ö`,
`ø`–`ÿ` (`×` and `÷` are symbols, not letters). -/
def latinOneWord (c : Char) : Bool :=
  c.toNat = 0xAA || c.toNat = 0xB2 || c.toNat = 0xB3 || c.toNat = 0xB5 ||
  c.toNat = 0xB9 || c.toNat = 0xBA || c.toNat = 0xBC || c.toNat = 0xBD ||
  c.toNat = 0xBE || (0xC0 ≤ c.toNat && c.toNat ≤ 0xD6) ||
  (0xD8 ≤ c.toNat && c.toNat ≤ 0xF6) || (0xF8 ≤ c.toNat && c.toNat ≤ 0xFF)

/-- Python's regex class `\w` — alphanumeric per `str.isalnum`, plus the
underscore — made exact for every code point below `0x100`: ASCII
letters and digits, the underscore, and the Latin-1 alphanumerics.
Word characters above the Latin-1 block are not modelled and are treated
as non-word characters. -/
def wordChar (c : Char) : Bool :=
  c.isAlphanum || c == '_' || latinOneWord c

/-- Characters surviving the deletion regex `[^\w\-\. ]+` of
`sanitize_filename_component`. -/
def keepChar (c : Char) : Bool :=
  wordChar c || c == '-' || c == '.' || c == ' '

/-- One character of the `s.replace(" ", "_")` step. -/
def spaceToUnderscore (c : Char) : Char :=
  if c == ' ' then '_' else c

/-- Python `s.strip()`: drop leading and trailing whitespace. -/
def pyStrip (l : List Char) : List Char :=
  ((l.dropWhile pySpace).reverse.dropWhile pySpace).reverse

/-- Helper for `collapseWs`: the Boolean records whether the scan is
inside a whitespace run whose single replacement space was already
emitted. -/
def collapseAux : Bool → List Char → List Char
  | _, [] => []
  | inRun, c :: rest =>
    if pySpace c then
      if inRun then collapseAux true rest
      else ' ' :: collapseAux true rest
    else c :: collapseAux false rest

/-- Python `re.sub(r"\s+", " ", s)`: every maximal whitespace run becomes
a single space. -/
def collapseWs (l : List Char) : List Char :=
  collapseAux false l

/-- The function `sanitize_filename_component` of `clipper.py`: strip the
input; if the stripped string is empty return `"untitled"`; otherwise
collapse whitespace runs, delete every character outside `\w`, `-`, `.`
and space, replace spaces with underscores and truncate to 80
characters. -/
def sanitize_filename_component (l : List Char) : List Char :=
  let s := pyStrip l
  if s.isEmpty then "untitled".data
  else (((collapseWs s).filter keepChar).map spaceToUnderscore).take 80

/-- The sanitization pipeline exactly as the specification words it: trim,
collapse whitespace runs, drop every character outside letters, digits,
`-`, `.` and space (in particular the underscore is dropped), replace
spaces with underscores, truncate to 80 characters, and substitute
`"untitled"` when the final result is empty.  Kept separate from
`sanitize_filename_component` so the two can be compared. -/
def specSanitize (l : List Char) : List Char :=
  let s := (((collapseWs (pyStrip l)).filter
      (fun c => c.isAlphanum || c == '-' || c == '.' || c == ' ')).map
      spaceToUnderscore).take 80
  if s.isEmpty then "untitled".data else s

/-- A ring-buffer segment file: its path and its modification time. -/
structure Seg where
  path : String
  mtime : Nat
deriving DecidableEq

/-- Insertion into a list sorted by ascending mtime, placed before later
equal keys so that the resulting sort is stable like Python `sorted`. -/
def insertByMtime (s : Seg) : List Seg → List Seg
  | [] => [s]
  | t :: ts => if s.mtime ≤ t.mtime then s :: t :: ts else t :: insertByMtime s ts

/-- Python `sorted(segs, key=lambda p: p.stat().st_mtime)`: the buffer
listing sorted by ascending modification time. -/
def sortByMtime : List Seg → List Seg
  | [] => []
  | s :: ss => insertByMtime s (sortByMtime ss)

/-- Python `sorted(..., key=mtime, reverse=True)`: the listing newest
first, used by `save_clip`. -/
def listDescByMtime (dir : List Seg) : List Seg :=
  (sortByMtime dir).reverse

/-- The integer fields of the `Config` dataclass that the cleanup loop and
the assembler consume, with the dataclass defaults. -/
structure Config where
  clip_length : Int
  segment_time : Int
  encoder : String
  preset : String
  min_free_gb : Int
deriving DecidableEq

/-- The default configuration: `clip_length=120`, `segment_time=10`,
`encoder="libx264"`, `preset="veryfast"`, `min_free_gb=2`. -/
def defaultCfg : Config :=
  ⟨120, 10, "libx264", "veryfast", 2⟩

/-- The capacity bound computed by `Recorder._cleanup_loop`:
`int(self.cfg.clip_length / self.cfg.segment_time) * 3`. -/
def capacityBound (cfg : Config) : Int :=
  (cfg.clip_length.tdiv cfg.segment_time) * 3

/-- The capacity bound as the specification words it:
`ceil(clip_length / segment_time) * safety_factor` with safety factor 3;
for a positive segment time the ceiling of the quotient is
`(clip_length + segment_time - 1) // segment_time` with floor
division (`Int.ediv`). -/
def specCapacityBound (cfg : Config) : Int :=
  ((cfg.clip_length + cfg.segment_time - 1).ediv cfg.segment_time) * 3

/-- The low-disk-space test `usage.free / (1024 ** 3) < min_free_gb`,
compared exactly: free bytes against `min_free_gb * 2^30`. -/
def lowSpace (cfg : Config) (free : Nat) : Bool :=
  (free : Int) < cfg.min_free_gb * 1024 ^ 3

/-- One pass of the body of `Recorder._cleanup_loop`: sort the listing by
ascending mtime; when the count exceeds the capacity bound delete the
excess oldest segments (`segs[0 : len(segs) - capacity]`); then, when the
disk probe is available (`free?` is `some`) and reports low space over a
nonempty listing, delete `max(1, len(segs) // 10)` of the oldest segments
of the same pre-prune listing — a file already removed by the capacity
prune is skipped (`missing_ok=True`).  The result is the list of
surviving segments in mtime order. -/
def cleanupTick (cfg : Config) (free? : Option Nat) (dir : List Seg) : List Seg :=
  let segs := sortByMtime dir
  let afterCap :=
    if capacityBound cfg < (segs.length : Int) then
      segs.drop ((segs.length : Int) - capacityBound cfg).toNat
    else segs
  match free? with
  | none => afterCap
  | some free =>
    if lowSpace cfg free && !segs.isEmpty then
      afterCap.filter (fun s => decide (s ∉ segs.take (max 1 (segs.length / 10))))
    else afterCap

/-- Python `length_seconds or self.cfg.clip_length`: both `None` and `0`
are falsy and fall back to the configured clip length. -/
def resolveLength (length_seconds : Option Int) (clipLen : Int) : Int :=
  match length_seconds with
  | none => clipLen
  | some v => if v = 0 then clipLen else v

/-- The segment count
`needed_segments = max(1, int((length + segment_time - 1) / segment_time))`. -/
def neededSegments (length st : Int) : Int :=
  max 1 ((length + st - 1).tdiv st)

/-- The assembly window `list(reversed(segs[:needed_segments]))`: the
newest `needed_segments` entries of the descending listing, reversed back
into chronological order. -/
def chosenFor (cfg : Config) (dir : List Seg) (length : Int) : List Seg :=
  ((listDescByMtime dir).take (neededSegments length cfg.segment_time).toNat).reverse

/-- The environment a single `save_clip` call observes: the free-space
probe (`none` models psutil unavailable or `disk_usage` raising), the
buffer directory contents, the exit statuses of the stream-copy and
re-encode ffmpeg invocations, the active window title and the timestamp
string. -/
structure Env where
  free? : Option Nat
  dir : List Seg
  fastOk : Bool
  fallbackOk : Bool
  title : String
  ts : String
deriving DecidableEq

/-- Observable filesystem and process actions of `save_clip`, recorded in
order. -/
inductive Ev where
  | probe
  | listDir
  | mkClipsDir
  | writeManifest (lines : List String)
  | runConcat (manifest : List String) (output : String) (reencode : Bool)
  | notifyEv (msg : String)
  | unlinkManifest
deriving DecidableEq

/-- The sanitizer applied to a `String`. -/
def sanitizeStr (s : String) : String :=
  ⟨sanitize_filename_component s.data⟩

/-- The output filename `{ts}_{length}s_{sanitized title}.mp4`. -/
def outName (env : Env) (length : Int) : String :=
  env.ts ++ "_" ++ toString length ++ "s_" ++ sanitizeStr env.title ++ ".mp4"

/-- The body of `save_clip` after the free-space check: list the buffer
newest first, fail with a logged error on an empty buffer, choose the
window, create the clips directory and the concat manifest, try the
stream-copy concatenation and on a non-zero exit retry with a re-encode
to the same output path, notify on success, and unlink the manifest on
every exit path (twice on the fallback paths, where both the inner and
the outer `finally` run; the second unlink is a no-op). -/
def saveCore (cfg : Config) (env : Env) (length : Int) : Option String × List Ev :=
  let segsDesc := listDescByMtime env.dir
  if segsDesc.isEmpty then (none, [Ev.listDir])
  else
    let manifest := ((segsDesc.take (neededSegments length cfg.segment_time).toNat).reverse).map
      (fun s => s.path)
    let out := outName env length
    if env.fastOk then
      (some out, [Ev.listDir, Ev.mkClipsDir, Ev.writeManifest manifest,
        Ev.runConcat manifest out false, Ev.notifyEv out, Ev.unlinkManifest])
    else if env.fallbackOk then
      (some out, [Ev.listDir, Ev.mkClipsDir, Ev.writeManifest manifest,
        Ev.runConcat manifest out false, Ev.runConcat manifest out true,
        Ev.notifyEv out, Ev.unlinkManifest, Ev.unlinkManifest])
    else
      (none, [Ev.listDir, Ev.mkClipsDir, Ev.writeManifest manifest,
        Ev.runConcat manifest out false, Ev.runConcat manifest out true,
        Ev.unlinkManifest, Ev.unlinkManifest])

/-- `ClipAssembler.save_clip`: resolve the requested length through
Python's falsy `or`, and when the disk probe is available compare free
space against the absolute floor `300 * 1024 * 1024` bytes, returning
`None` below it before any buffer access; otherwise run the assembly
body.  The result pairs the returned clip path (or `none`) with the
ordered action trace. -/
def save_clip (cfg : Config) (env : Env) (length_seconds : Option Int) :
    Option String × List Ev :=
  let length := resolveLength length_seconds cfg.clip_length
  match env.free? with
  | none => saveCore cfg env length
  | some free =>
    if free < 300 * 1024 * 1024 then (none, [Ev.probe])
    else
      let r := saveCore cfg env length
      (r.1, Ev.probe :: r.2)

/-- Segment `i` of a synthetic buffer: path is the decimal index, mtime is
the index itself (chronological indices double as timestamps). -/
def mkSeg (i : Nat) : Seg :=
  ⟨toString i, i⟩

/-- A synthetic buffer directory holding segments with chronological
indices `1..n`. -/
def mkDir (n : Nat) : List Seg :=
  (List.range' 1 n).map mkSeg

/-- Free space at least the 300 MB assembly floor whenever the probe is
available. -/
def floorOK (env : Env) : Prop :=
  ∀ f, env.free? = some f → 300 * 1024 * 1024 ≤ f

/-- Free space not below the pruning threshold whenever the probe is
available. -/
def pruneSpaceOK (cfg : Config) (free? : Option Nat) : Prop :=
  ∀ f, free? = some f → lowSpace cfg f = false

/-! ### Sanitization lemmas -/

lemma isAlphanum_range {c : Char} (h : c.isAlphanum = true) :
    (48 ≤ c.toNat ∧ c.toNat ≤ 57) ∨ (65 ≤ c.toNat ∧ c.toNat ≤ 90) ∨
      (97 ≤ c.toNat ∧ c.toNat ≤ 122) := by
  simp [Char.isAlphanum, Char.isAlpha, Char.isDigit, Char.isUpper,
    Char.isLower] at h
  rcases h with (h | h) | h
  · right; left; exact h
  · right; right; exact h
  · left; exact h

lemma pySpace_toNat {c : Char} (hs : pySpace c = true) :
    (9 ≤ c.toNat ∧ c.toNat ≤ 13) ∨ c.toNat = 32 ∨
      (28 ≤ c.toNat ∧ c.toNat ≤ 31) ∨ c.toNat = 133 ∨ c.toNat = 160 := by
  simp only [pySpace, Bool.or_eq_true, Bool.and_eq_true, decide_eq_true_eq,
    beq_iff_eq] at hs
  rcases hs with (((h | h) | h) | h) | h
  · exact Or.inl h
  · subst h; right; left; rfl
  · right; right; left; exact h
  · right; right; right; left; exact h
  · right; right; right; right; exact h

lemma latinOneWord_range {c : Char} (h : latinOneWord c = true) :
    170 ≤ c.toNat ∧ c.toNat ≤ 255 := by
  simp only [latinOneWord, Bool.or_eq_true, Bool.and_eq_true,
    decide_eq_true_eq] at h
  rcases h with (((((((((((h | h) | h) | h) | h) | h) | h) | h) | h) | h) | h) | h) <;>
    omega

lemma keepChar_space {c : Char} (hs : pySpace c = true) (hk : keepChar c = true) :
    c = ' ' := by
  have hv := pySpace_toNat hs
  simp only [keepChar, wordChar, Bool.or_eq_true, beq_iff_eq] at hk
  rcases hk with ((((ha | hu) | hl) | hdash) | hdot) | hsp
  · rcases isAlphanum_range ha with h | h | h <;> omega
  · have h95 : c.toNat = 95 := by rw [hu]; decide
    omega
  · have := latinOneWord_range hl
    omega
  · have h45 : c.toNat = 45 := by rw [hdash]; decide
    omega
  · have h46 : c.toNat = 46 := by rw [hdot]; decide
    omega
  · exact hsp

lemma wordChar_ascii {c : Char} (hv : c.toNat ≤ 127) (hw : wordChar c = true) :
    (c.isAlphanum || c == '_') = true := by
  simp only [wordChar, Bool.or_eq_true] at hw
  rcases hw with (h | h) | h
  · simp [h]
  · simp [h]
  · have := latinOneWord_range h
    omega

lemma collapseAux_subset (l : List Char) :
    ∀ b, ∀ c ∈ collapseAux b l, c = ' ' ∨ c ∈ l := by
  induction l with
  | nil =>
    intro b c hc
    simp [collapseAux] at hc
  | cons a t ih =>
    intro b c hc
    by_cases ha : pySpace a
    · cases b with
      | true =>
        simp only [collapseAux, ha, if_true] at hc
        rcases ih true c hc with h | h
        · exact Or.inl h
        · exact Or.inr (List.mem_cons_of_mem a h)
      | false =>
        simp only [collapseAux, ha, if_true] at hc
        rcases List.mem_cons.mp hc with h | h
        · exact Or.inl h
        · rcases ih true c h with h2 | h2
          · exact Or.inl h2
          · exact Or.inr (List.mem_cons_of_mem a h2)
    · simp only [collapseAux, ha, if_false] at hc
      rcases List.mem_cons.mp hc with h | h
      · exact Or.inr (h ▸ List.mem_cons_self a t)
      · rcases ih false c h with h2 | h2
        · exact Or.inl h2
        · exact Or.inr (List.mem_cons_of_mem a h2)

lemma pyStrip_subset (l : List Char) : ∀ c ∈ pyStrip l, c ∈ l := by
  intro c hc
  simp only [pyStrip, List.mem_reverse] at hc
  have h2 := (List.dropWhile_sublist pySpace).mem hc
  rw [List.mem_reverse] at h2
  exact (List.dropWhile_sublist pySpace).mem h2

lemma sanitize_chars (l : List Char) :
    ∀ c ∈ sanitize_filename_component l, keepChar c = true ∧ c ≠ ' ' := by
  unfold sanitize_filename_component
  by_cases hempty : (pyStrip l).isEmpty
  · simp only [hempty, if_true]
    decide
  · simp only [hempty, if_false]
    intro c hc
    have hc' : c ∈ ((collapseWs (pyStrip l)).filter keepChar).map spaceToUnderscore :=
      (List.take_sublist 80 _).mem hc
    obtain ⟨d, hd, rfl⟩ := List.mem_map.mp hc'
    have hkeep : keepChar d = true := (List.mem_filter.mp hd).2
    by_cases hsp : d = ' '
    · subst hsp
      exact ⟨by decide, by decide⟩
    · have : spaceToUnderscore d = d := by
        simp [spaceToUnderscore, hsp]
      rw [this]
      exact ⟨hkeep, hsp⟩

lemma sanitize_length_le (l : List Char) :
    (sanitize_filename_component l).length ≤ 80 := by
  unfold sanitize_filename_component
  by_cases hempty : (pyStrip l).isEmpty
  · simp only [hempty, if_true]
    decide
  · simp only [hempty, if_false]
    exact le_trans (List.length_take_le 80 _) (le_refl 80)

lemma dropWhile_eq_self_of (p : Char → Bool) (l : List Char)
    (h : ∀ c ∈ l, p c = false) : l.dropWhile p = l := by
  cases l with
  | nil => rfl
  | cons a t => simp [List.dropWhile_cons, h a (by simp)]

lemma pyStrip_eq_self_of (l : List Char) (h : ∀ c ∈ l, pySpace c = false) :
    pyStrip l = l := by
  unfold pyStrip
  rw [dropWhile_eq_self_of pySpace l h]
  rw [dropWhile_eq_self_of pySpace l.reverse (fun c hc => h c (List.mem_reverse.mp hc))]
  exact List.reverse_reverse l

lemma collapseAux_eq_self_of (l : List Char) (h : ∀ c ∈ l, pySpace c = false) :
    ∀ b, collapseAux b l = l := by
  induction l with
  | nil => intro b; rfl
  | cons a t ih =>
    intro b
    simp [collapseAux, h a (by simp), ih (fun c hc => h c (by simp [hc]))]

lemma collapseWs_eq_self_of (l : List Char) (h : ∀ c ∈ l, pySpace c = false) :
    collapseWs l = l :=
  collapseAux_eq_self_of l h false

lemma map_id_of (f : Char → Char) (l : List Char) (h : ∀ c ∈ l, f c = c) :
    l.map f = l := by
  induction l with
  | nil => rfl
  | cons a t ih =>
    simp only [List.map_cons, h a (by simp), ih (fun c hc => h c (by simp [hc]))]

lemma sanitize_fixed (r : List Char) (hne : r ≠ [])
    (hchars : ∀ c ∈ r, keepChar c = true ∧ c ≠ ' ') (hlen : r.length ≤ 80) :
    sanitize_filename_component r = r := by
  have hs : ∀ c ∈ r, pySpace c = false := by
    intro c hc
    by_contra hcon
    have h1 : pySpace c = true := by
      cases h : pySpace c
      · exact absurd h hcon
      · rfl
    exact (hchars c hc).2 (keepChar_space h1 (hchars c hc).1)
  have hstrip : pyStrip r = r := pyStrip_eq_self_of r hs
  have hemp : r.isEmpty = false := by
    cases r
    · exact absurd rfl hne
    · rfl
  simp only [sanitize_filename_component, hstrip, hemp, Bool.false_eq_true, if_false]
  rw [collapseWs_eq_self_of r hs]
  rw [List.filter_eq_self.mpr (fun c hc => (hchars c hc).1)]
  rw [map_id_of spaceToUnderscore r (fun c hc => by
    simp [spaceToUnderscore, (hchars c hc).2])]
  exact List.take_of_length_le hlen

/-! ### Claim C5 and C6: sanitization -/

/-- C5, counterexample.  The claim's pipeline (`specSanitize`, which
drops the underscore and substitutes the placeholder only at the end)
disagrees with `sanitize_filename_component`: the code keeps underscores
(`\w` includes them), and it substitutes `"untitled"` only when the
*stripped* input is empty, so `"!!!"` sanitizes to the empty string.
The claim's charset consequent also fails on the program: `\w` is a
Unicode class, so `"Café"` sanitizes to itself and the output character
`é` lies outside `[A-Za-z0-9._-]`. -/
theorem sanitize_pipeline_cex :
    sanitize_filename_component "a_b".data ≠ specSanitize "a_b".data ∧
    sanitize_filename_component "!!!".data ≠ specSanitize "!!!".data ∧
    sanitize_filename_component "Café".data = "Café".data ∧
    'é' ∈ sanitize_filename_component "Café".data ∧
    ('é'.isAlphanum || 'é' == '_' || 'é' == '-' || 'é' == '.') = false := by
  decide

/-- C5 (amended): `sanitize_filename_component` strips the input and
substitutes `"untitled"` exactly when the stripped input is empty;
otherwise it collapses whitespace runs, keeps only word characters
(Python `\w`: letters, digits and underscore, including non-ASCII
letters such as `é`), `-`, `.` and space, replaces spaces with
underscores and truncates to 80 characters.  Consequently every output
character is a word character, `-` or `.`, the output holds no raw
space, and its length is at most 80; and for ASCII input — where `\w`
is exactly `[A-Za-z0-9_]` — every output character lies in
`[A-Za-z0-9._-]`.  The original claim's unconditional `[A-Za-z0-9._-]`
guarantee fails on non-ASCII input (see the counterexample). -/
theorem sanitize_charset_bound (l : List Char) :
    (∀ c ∈ sanitize_filename_component l,
      (wordChar c || c == '-' || c == '.') = true ∧ c ≠ ' ') ∧
    (sanitize_filename_component l).length ≤ 80 ∧
    ((∀ c ∈ l, c.toNat ≤ 127) →
      ∀ c ∈ sanitize_filename_component l,
        (c.isAlphanum || c == '_' || c == '-' || c == '.') = true ∧
          c.toNat ≤ 127) ∧
    (pyStrip l = [] → sanitize_filename_component l = "untitled".data) := by
  refine ⟨?_, sanitize_length_le l, ?_, ?_⟩
  · intro c hc
    obtain ⟨hk, hsp⟩ := sanitize_chars l c hc
    refine ⟨?_, hsp⟩
    simp only [keepChar, Bool.or_eq_true, beq_iff_eq] at hk
    simp only [Bool.or_eq_true, beq_iff_eq]
    rcases hk with ((h | h) | h) | h
    · tauto
    · tauto
    · tauto
    · exact absurd h hsp
  · intro hascii c hc
    by_cases hempty : (pyStrip l).isEmpty
    · have huntitled : sanitize_filename_component l = "untitled".data := by
        simp [sanitize_filename_component, hempty]
      rw [huntitled] at hc
      exact (by decide :
        ∀ x ∈ "untitled".data,
          (x.isAlphanum || x == '_' || x == '-' || x == '.') = true ∧
            x.toNat ≤ 127) c hc
    · have hrepr : sanitize_filename_component l =
          (((collapseWs (pyStrip l)).filter keepChar).map
            spaceToUnderscore).take 80 := by
        simp [sanitize_filename_component, hempty]
      rw [hrepr] at hc
      have hc2 : c ∈ ((collapseWs (pyStrip l)).filter keepChar).map
          spaceToUnderscore :=
        (List.take_sublist 80 _).mem hc
      obtain ⟨d, hd, rfl⟩ := List.mem_map.mp hc2
      have hdf := List.mem_filter.mp hd
      by_cases hdsp : d = ' '
      · subst hdsp
        exact ⟨by decide, by decide⟩
      · have hfd : spaceToUnderscore d = d := by simp [spaceToUnderscore, hdsp]
        rw [hfd]
        have hdl : d ∈ l := by
          rcases collapseAux_subset (pyStrip l) false d hdf.1 with h | h
          · exact absurd h hdsp
          · exact pyStrip_subset l d h
        have hdval : d.toNat ≤ 127 := hascii d hdl
        refine ⟨?_, hdval⟩
        have hkeep := hdf.2
        simp only [keepChar, Bool.or_eq_true, beq_iff_eq] at hkeep
        simp only [Bool.or_eq_true, beq_iff_eq]
        rcases hkeep with ((hw | h) | h) | h
        · have hha := wordChar_ascii hdval hw
          simp only [Bool.or_eq_true, beq_iff_eq] at hha
          tauto
        · tauto
        · tauto
        · exact absurd h hdsp
  · intro h
    simp [sanitize_filename_component, h]

/-- C5 witness at the input
`"  My Game!  "` (leading/trailing blanks, a punctuation character,
all-ASCII). -/
theorem sanitize_charset_bound_witness :
    (∀ c ∈ sanitize_filename_component "  My Game!  ".data,
      (wordChar c || c == '-' || c == '.') = true ∧ c ≠ ' ') ∧
    (sanitize_filename_component "  My Game!  ".data).length ≤ 80 ∧
    ((∀ c ∈ "  My Game!  ".data, c.toNat ≤ 127) →
      ∀ c ∈ sanitize_filename_component "  My Game!  ".data,
        (c.isAlphanum || c == '_' || c == '-' || c == '.') = true ∧
          c.toNat ≤ 127) ∧
    (pyStrip "  My Game!  ".data = [] →
      sanitize_filename_component "  My Game!  ".data = "untitled".data) :=
  sanitize_charset_bound "  My Game!  ".data

/-- C6, counterexample.  Sanitization is not idempotent: `"!!!"` strips
to a nonempty string, every character of which is then deleted, so
`sanitize("!!!") = ""`; the second application sees an empty input and
returns `"untitled"`. -/
theorem sanitize_idem_cex :
    sanitize_filename_component (sanitize_filename_component "!!!".data) ≠
      sanitize_filename_component "!!!".data := by
  decide

/-- C6 (amended): sanitization is idempotent on every input whose
sanitized form is nonempty; the only failure of idempotence is the
empty-result case, where the second application yields `"untitled"`. -/
theorem sanitize_idem_nonempty (l : List Char)
    (h : sanitize_filename_component l ≠ []) :
    sanitize_filename_component (sanitize_filename_component l) =
      sanitize_filename_component l :=
  sanitize_fixed _ h (sanitize_chars l) (sanitize_length_le l)

/-- C6 witness at the input `"My Game"`. -/
theorem sanitize_idem_nonempty_witness :
    sanitize_filename_component (sanitize_filename_component "My Game".data) =
      sanitize_filename_component "My Game".data :=
  sanitize_idem_nonempty "My Game".data (by decide)

/-! ### Claim C1: non-positive durations -/

lemma neededSegments_neg_five {st : Int} (hst : 0 < st) :
    neededSegments (-5) st = 1 := by
  unfold neededSegments
  rcases le_or_lt 6 st with h6 | h6
  · rw [Int.tdiv_eq_zero_of_lt (by omega) (by omega)]
    decide
  · interval_cases st <;> decide

lemma save_clip_events_ne_nil (cfg : Config) (env : Env) (ls : Option Int) :
    (save_clip cfg env ls).2 ≠ [] := by
  rcases henv : env.free? with _ | f
  · simp only [save_clip, henv]
    by_cases h1 : (listDescByMtime env.dir).isEmpty
    · simp [saveCore, h1]
    · by_cases h2 : env.fastOk = true
      · simp [saveCore, h1, h2]
      · by_cases h3 : env.fallbackOk = true <;> simp [saveCore, h1, h2, h3]
  · by_cases hlow : f < 300 * 1024 * 1024 <;> simp [save_clip, henv, hlow]

/-- C1, counterexample.  `save_clip(0)` is not rejected: Python's
`length_seconds or clip_length` treats `0` as falsy, so the call saves a
default-length clip, returning a path and performing filesystem work;
`save_clip(-5)` likewise proceeds (with a single segment) and returns a
path. -/
theorem save_clip_rejects_nothing_cex :
    (save_clip defaultCfg ⟨none, mkDir 3, true, true, "t", "ts"⟩ (some 0)).1 =
      some "ts_120s_t.mp4" ∧
    (save_clip defaultCfg ⟨none, mkDir 3, true, true, "t", "ts"⟩ (some 0)).2 ≠ [] ∧
    (save_clip defaultCfg ⟨none, mkDir 3, true, true, "t", "ts"⟩ (some (-5))).1 =
      some "ts_-5s_t.mp4" := by
  refine ⟨by decide, ?_, by decide⟩
  decide

/-- C1 (amended): no `InvalidDurationError` exists and no request is
rejected for its duration.  A requested duration of `0` is falsy in
Python and falls back to the configured clip length, making
`save_clip(0)` identical to `save_clip()`; a negative duration such as
`-5` is used as-is and yields `needed_segments = 1`; in both cases the
call goes on to perform filesystem operations (its action trace is
nonempty). -/
theorem save_clip_nonpositive_falls_through (cfg : Config) (env : Env)
    (hst : 0 < cfg.segment_time) :
    save_clip cfg env (some 0) = save_clip cfg env none ∧
    resolveLength (some (-5)) cfg.clip_length = -5 ∧
    neededSegments (-5) cfg.segment_time = 1 ∧
    (save_clip cfg env (some 0)).2 ≠ [] ∧
    (save_clip cfg env (some (-5))).2 ≠ [] := by
  refine ⟨?_, rfl, neededSegments_neg_five hst,
    save_clip_events_ne_nil cfg env (some 0),
    save_clip_events_ne_nil cfg env (some (-5))⟩
  simp [save_clip, resolveLength]

/-- C1 witness at the default configuration and a two-segment buffer. -/
theorem save_clip_nonpositive_falls_through_witness :
    save_clip defaultCfg ⟨none, mkDir 2, true, true, "w", "w0"⟩ (some 0) =
      save_clip defaultCfg ⟨none, mkDir 2, true, true, "w", "w0"⟩ none ∧
    resolveLength (some (-5)) defaultCfg.clip_length = -5 ∧
    neededSegments (-5) defaultCfg.segment_time = 1 ∧
    (save_clip defaultCfg ⟨none, mkDir 2, true, true, "w", "w0"⟩ (some 0)).2 ≠ [] ∧
    (save_clip defaultCfg ⟨none, mkDir 2, true, true, "w", "w0"⟩ (some (-5))).2 ≠ [] :=
  save_clip_nonpositive_falls_through defaultCfg
    ⟨none, mkDir 2, true, true, "w", "w0"⟩ (by decide)

/-! ### Claim C9: the 300 MB assembly floor -/

/-- C9: when the probe reports free space below `300 * 1024 * 1024`
bytes, `save_clip` fails fast, returning `None` with the probe as its
only action — no listing, no manifest, no concat invocation, no
notification, no deletion of anything. -/
theorem save_clip_space_floor (cfg : Config) (env : Env) (ls : Option Int)
    (f : Nat) (hf : env.free? = some f) (hlow : f < 300 * 1024 * 1024) :
    save_clip cfg env ls = (none, [Ev.probe]) := by
  simp [save_clip, hf, hlow]

/-- C9 witness with zero free bytes. -/
theorem save_clip_space_floor_witness :
    save_clip defaultCfg ⟨some 0, mkDir 4, true, true, "w", "w9"⟩ (some 30) =
      (none, [Ev.probe]) :=
  save_clip_space_floor defaultCfg ⟨some 0, mkDir 4, true, true, "w", "w9"⟩
    (some 30) 0 rfl (by decide)

/-! ### Claim C8: manifest cleanup -/

lemma saveCore_manifest_cleanup (cfg : Config) (env : Env) (length : Int)
    (m : List String)
    (h : Ev.writeManifest m ∈ (saveCore cfg env length).2) :
    Ev.unlinkManifest ∈ (saveCore cfg env length).2 := by
  by_cases h1 : (listDescByMtime env.dir).isEmpty
  · simp [saveCore, h1] at h
  · by_cases h2 : env.fastOk = true
    · simp [saveCore, h1, h2]
    · by_cases h3 : env.fallbackOk = true <;> simp [saveCore, h1, h2, h3]

/-- C8: on every exit path on which the temporary concat manifest was
written — fast-path success, fallback success, or double failure — the
manifest file is unlinked. -/
theorem save_clip_manifest_cleanup (cfg : Config) (env : Env) (ls : Option Int)
    (m : List String)
    (h : Ev.writeManifest m ∈ (save_clip cfg env ls).2) :
    Ev.unlinkManifest ∈ (save_clip cfg env ls).2 := by
  rcases henv : env.free? with _ | f
  · simp only [save_clip, henv] at h ⊢
    exact saveCore_manifest_cleanup cfg env _ m h
  · by_cases hlow : f < 300 * 1024 * 1024
    · simp [save_clip, henv, hlow] at h
    · simp only [save_clip, henv, if_neg hlow] at h ⊢
      rcases List.mem_cons.mp h with hc | hc
      · exact absurd hc (by simp)
      · exact List.mem_cons_of_mem _ (saveCore_manifest_cleanup cfg env _ m hc)

/-- C8 witness: a one-segment buffer on the fast path writes the
manifest `["1"]` and unlinks it. -/
theorem save_clip_manifest_cleanup_witness :
    Ev.unlinkManifest ∈
      (save_clip defaultCfg ⟨none, mkDir 1, true, true, "w", "w8"⟩ (some 30)).2 :=
  save_clip_manifest_cleanup defaultCfg ⟨none, mkDir 1, true, true, "w", "w8"⟩
    (some 30) ["1"] (by decide)

/-! ### Claim C10: probe unavailable -/

lemma lowSpace_at_threshold (cfg : Config) :
    lowSpace cfg (cfg.min_free_gb * 1024 ^ 3).toNat = false := by
  simp only [lowSpace, decide_eq_false_iff_not]
  omega

/-- C10: with the disk probe unavailable (psutil missing or the usage
query raising, `free? = none`) every free-space check is skipped:
`save_clip` performs no probe, proceeds straight to the directory
listing, and returns the same outcome as with ample free space; and the
cleanup tick never applies the low-disk-space prune, behaving exactly as
a tick that observes free space at the pruning threshold (capacity prune
only). -/
theorem probe_unavailable_skips_checks (cfg : Config) (env : Env)
    (ls : Option Int) (dir : List Seg) (h : env.free? = none) :
    Ev.probe ∉ (save_clip cfg env ls).2 ∧
    (save_clip cfg env ls).2.head? = some Ev.listDir ∧
    (save_clip cfg env ls).1 =
      (save_clip cfg ⟨some (300 * 1024 * 1024), env.dir, env.fastOk,
        env.fallbackOk, env.title, env.ts⟩ ls).1 ∧
    cleanupTick cfg none dir =
      cleanupTick cfg (some (cfg.min_free_gb * 1024 ^ 3).toNat) dir := by
  refine ⟨?_, ?_, ?_, ?_⟩
  · simp only [save_clip, h]
    by_cases h1 : (listDescByMtime env.dir).isEmpty
    · simp [saveCore, h1]
    · by_cases h2 : env.fastOk = true
      · simp [saveCore, h1, h2]
      · by_cases h3 : env.fallbackOk = true <;> simp [saveCore, h1, h2, h3]
  · simp only [save_clip, h]
    by_cases h1 : (listDescByMtime env.dir).isEmpty
    · simp [saveCore, h1]
    · by_cases h2 : env.fastOk = true
      · simp [saveCore, h1, h2]
      · by_cases h3 : env.fallbackOk = true <;> simp [saveCore, h1, h2, h3]
  · simp [save_clip, h, saveCore, Nat.lt_irrefl, outName]
  · have hl : lowSpace cfg (cfg.min_free_gb * 1073741824).toNat = false := by
      simp only [lowSpace, decide_eq_false_iff_not]
      omega
    simp [cleanupTick, lowSpace_at_threshold cfg, hl]

/-- C10 witness: a probe-less environment over a three-segment buffer. -/
theorem probe_unavailable_skips_checks_witness :
    Ev.probe ∉
      (save_clip defaultCfg ⟨none, mkDir 3, false, true, "w", "wa"⟩ (some 20)).2 ∧
    (save_clip defaultCfg ⟨none, mkDir 3, false, true, "w", "wa"⟩
      (some 20)).2.head? = some Ev.listDir ∧
    (save_clip defaultCfg ⟨none, mkDir 3, false, true, "w", "wa"⟩ (some 20)).1 =
      (save_clip defaultCfg ⟨some (300 * 1024 * 1024), mkDir 3, false, true,
        "w", "wa"⟩ (some 20)).1 ∧
    cleanupTick defaultCfg none (mkDir 5) =
      cleanupTick defaultCfg (some (defaultCfg.min_free_gb * 1024 ^ 3).toNat)
        (mkDir 5) :=
  probe_unavailable_skips_checks defaultCfg ⟨none, mkDir 3, false, true, "w", "wa"⟩
    (some 20) (mkDir 5) rfl

/-! ### Sorting and windowing lemmas -/

lemma sortByMtime_eq_self (l : List Seg)
    (h : l.Pairwise (fun a b => a.mtime ≤ b.mtime)) : sortByMtime l = l := by
  induction l with
  | nil => rfl
  | cons s ss ih =>
    show insertByMtime s (sortByMtime ss) = s :: ss
    rw [ih ((List.pairwise_cons.mp h).2)]
    cases ss with
    | nil => rfl
    | cons t ts =>
      have hst : s.mtime ≤ t.mtime := (List.pairwise_cons.mp h).1 t (by simp)
      simp [insertByMtime, hst]

lemma length_insertByMtime (s : Seg) (l : List Seg) :
    (insertByMtime s l).length = l.length + 1 := by
  induction l with
  | nil => rfl
  | cons t ts ih =>
    show (if s.mtime ≤ t.mtime then s :: t :: ts else t :: insertByMtime s ts).length
      = (t :: ts).length + 1
    split
    · simp
    · simp [ih]

lemma length_sortByMtime (l : List Seg) : (sortByMtime l).length = l.length := by
  induction l with
  | nil => rfl
  | cons s ss ih =>
    show (insertByMtime s (sortByMtime ss)).length = ss.length + 1
    rw [length_insertByMtime, ih]

lemma nodup_of_mtime_sorted {dir : List Seg}
    (h : dir.Pairwise (fun a b => a.mtime < b.mtime)) : dir.Nodup :=
  h.imp fun hab he => by
    subst he
    exact lt_irrefl _ hab

lemma mkDir_pairwise (n : Nat) :
    (mkDir n).Pairwise (fun a b => a.mtime < b.mtime) := by
  unfold mkDir
  rw [List.pairwise_map]
  exact List.pairwise_lt_range' 1 n

lemma range'_drop (a n : Nat) :
    ∀ k, (List.range' a n).drop k = List.range' (a + k) (n - k) := by
  induction n generalizing a with
  | zero => intro k; simp
  | succ n ih =>
    intro k
    cases k with
    | zero => simp
    | succ k =>
      rw [List.range'_succ]
      simp only [List.drop_succ_cons]
      rw [ih (a + 1) k]
      congr 1 <;> omega

lemma afterCap_eq (cfg : Config) (segs : List Seg) :
    (if capacityBound cfg < (segs.length : Int) then
      segs.drop ((segs.length : Int) - capacityBound cfg).toNat
    else segs) =
    segs.drop ((segs.length : Int) - capacityBound cfg).toNat := by
  split
  · rfl
  · have h0 : ((segs.length : Int) - capacityBound cfg).toNat = 0 := by omega
    rw [h0, List.drop_zero]

lemma filter_not_mem_take_drop {l : List Seg} (hnd : l.Nodup) (k c : Nat) :
    (l.drop k).filter (fun s => decide (s ∉ l.take c)) = l.drop (max k c) := by
  rcases le_or_lt c k with hck | hck
  · rw [max_eq_left hck]
    apply List.filter_eq_self.mpr
    intro a ha
    simp only [decide_eq_true_eq]
    exact fun hmem => (List.disjoint_take_drop hnd hck) hmem ha
  · rw [max_eq_right (le_of_lt hck)]
    have hsplit : l.drop k = (l.drop k).take (c - k) ++ (l.drop k).drop (c - k) :=
      (List.take_append_drop _ _).symm
    rw [hsplit, List.filter_append]
    have h2 : (l.drop k).drop (c - k) = l.drop c := by
      rw [List.drop_drop]
      congr 1
      omega
    have h1 : (l.drop k).take (c - k) = (l.take c).drop k := by
      rw [List.take_drop]
      congr 2
      omega
    have hnil : ((l.take c).drop k).filter (fun s => decide (s ∉ l.take c)) = [] := by
      apply List.filter_eq_nil_iff.mpr
      intro a ha
      simp only [decide_eq_true_eq, not_not]
      exact (List.drop_sublist k (l.take c)).mem ha
    have hall : (l.drop c).filter (fun s => decide (s ∉ l.take c)) = l.drop c := by
      apply List.filter_eq_self.mpr
      intro a ha
      simp only [decide_eq_true_eq]
      exact fun hmem => (List.disjoint_take_drop hnd (le_refl c)) hmem ha
    rw [h1, h2, hnil, hall, List.nil_append]

lemma cleanupTick_eq_of_spaceOK (cfg : Config) (free? : Option Nat)
    (dir : List Seg) (hspace : pruneSpaceOK cfg free?) :
    cleanupTick cfg free? dir =
      (sortByMtime dir).drop
        (((sortByMtime dir).length : Int) - capacityBound cfg).toNat := by
  rcases free? with _ | f
  · simp only [cleanupTick]
    exact afterCap_eq cfg (sortByMtime dir)
  · simp only [cleanupTick, hspace f rfl, Bool.false_and, Bool.false_eq_true,
      if_false]
    exact afterCap_eq cfg (sortByMtime dir)

/-! ### Claim C3: capacity bound and cleanup fixed point -/

/-- C3, counterexample.  The cleanup loop computes
`int(clip_length / segment_time) * 3` — a floor, not the ceiling the
claim states: with `clip_length = 125` and `segment_time = 10` the code's
capacity is 36 while `ceil(125/10) * 3 = 39`. -/
theorem capacity_bound_cex :
    capacityBound ⟨125, 10, "libx264", "veryfast", 2⟩ = 36 ∧
    specCapacityBound ⟨125, 10, "libx264", "veryfast", 2⟩ = 39 ∧
    capacityBound ⟨125, 10, "libx264", "veryfast", 2⟩ ≠
      specCapacityBound ⟨125, 10, "libx264", "veryfast", 2⟩ := by
  decide

/-- C3 (amended): the capacity bound used by the cleanup loop is
`int(clip_length / segment_time) * 3` (truncating division, a floor for
positive configurations, safety factor 3).  With that capacity `C`, one
cleanup pass over a static directory of `K > C` segments listed in
strictly increasing mtime order with free space not low leaves exactly
the `C` most-recently-modified segments (the `K - C` oldest are
deleted), and the result is a fixed point of the cleanup pass. -/
theorem cleanup_capacity_fixed_point (cfg : Config) (free? : Option Nat)
    (dir : List Seg)
    (hsorted : dir.Pairwise (fun a b => a.mtime < b.mtime))
    (hspace : pruneSpaceOK cfg free?) (hcap : 0 ≤ capacityBound cfg)
    (hK : capacityBound cfg < (dir.length : Int)) :
    cleanupTick cfg free? dir =
      dir.drop (dir.length - (capacityBound cfg).toNat) ∧
    (cleanupTick cfg free? dir).length = (capacityBound cfg).toNat ∧
    cleanupTick cfg free? (cleanupTick cfg free? dir) =
      cleanupTick cfg free? dir := by
  have hle : dir.Pairwise (fun a b => a.mtime ≤ b.mtime) :=
    hsorted.imp fun hab => le_of_lt hab
  have hsort : sortByMtime dir = dir := sortByMtime_eq_self dir hle
  have hamt : ((dir.length : Int) - capacityBound cfg).toNat =
      dir.length - (capacityBound cfg).toNat := by omega
  have h1 : cleanupTick cfg free? dir =
      dir.drop (dir.length - (capacityBound cfg).toNat) := by
    rw [cleanupTick_eq_of_spaceOK cfg free? dir hspace, hsort, hamt]
  have hlen : (cleanupTick cfg free? dir).length = (capacityBound cfg).toNat := by
    rw [h1, List.length_drop]
    omega
  refine ⟨h1, hlen, ?_⟩
  have hsorted2 : (cleanupTick cfg free? dir).Pairwise
      (fun a b => a.mtime < b.mtime) := by
    rw [h1]
    exact List.Pairwise.sublist (List.drop_sublist _ _) hsorted
  have hle2 : (cleanupTick cfg free? dir).Pairwise
      (fun a b => a.mtime ≤ b.mtime) :=
    hsorted2.imp fun hab => le_of_lt hab
  rw [cleanupTick_eq_of_spaceOK cfg free? _ hspace,
    sortByMtime_eq_self _ hle2, hlen]
  have h0 : (((capacityBound cfg).toNat : Int) - capacityBound cfg).toNat = 0 := by
    omega
  rw [h0, List.drop_zero]

/-- C3 witness: the default configuration (capacity 36) over a static
directory of 40 segments, probe unavailable. -/
theorem cleanup_capacity_fixed_point_witness :
    cleanupTick defaultCfg none (mkDir 40) =
      (mkDir 40).drop ((mkDir 40).length - (capacityBound defaultCfg).toNat) ∧
    (cleanupTick defaultCfg none (mkDir 40)).length =
      (capacityBound defaultCfg).toNat ∧
    cleanupTick defaultCfg none (cleanupTick defaultCfg none (mkDir 40)) =
      cleanupTick defaultCfg none (mkDir 40) :=
  cleanup_capacity_fixed_point defaultCfg none (mkDir 40) (mkDir_pairwise 40)
    (fun f h => nomatch h) (by decide) (by decide)

/-! ### Claim C4: the low-disk-space prune -/

/-- C4, counterexample.  Default configuration (capacity 36), 40 live
segments, free space 1.5 GiB (below `min_free_gb = 2`): the capacity
prune removes the 4 oldest segments, and the low-space prune then deletes
`segs[:4]` of the SAME pre-prune listing — the very segments already
removed (`missing_ok=True` makes those unlinks no-ops).  Only 4 segments
are removed in total and 36 remain, not the 32 that an *additional*
deletion of `max(1, 40 // 10)` segments would leave. -/
theorem low_space_prune_cex :
    (cleanupTick defaultCfg (some 1610612736) (mkDir 40)).length = 36 ∧
    (cleanupTick defaultCfg (some 1610612736) (mkDir 40)).length ≠ 40 - 4 - 4 := by
  decide

/-- C4 (amended): on a tick that observes low free space over a nonempty
listing, the loop deletes the `max(1, live_count // 10)` oldest segments
of the pre-tick listing.  These deletions overlap the capacity prune of
the same tick instead of adding to it: the tick's total removal is the
maximum of the two prune counts, so the segments surviving the tick are
the original list with that many of its oldest entries removed. -/
theorem cleanup_low_space_overlap (cfg : Config) (dir : List Seg) (free : Nat)
    (hsorted : dir.Pairwise (fun a b => a.mtime < b.mtime))
    (hlow : lowSpace cfg free = true) (hne : dir ≠ [])
    (hcap : 0 ≤ capacityBound cfg) :
    cleanupTick cfg (some free) dir =
      dir.drop (max (dir.length - (capacityBound cfg).toNat)
        (max 1 (dir.length / 10))) ∧
    dir.length - (cleanupTick cfg (some free) dir).length =
      max (dir.length - (capacityBound cfg).toNat) (max 1 (dir.length / 10)) := by
  have hle : dir.Pairwise (fun a b => a.mtime ≤ b.mtime) :=
    hsorted.imp fun hab => le_of_lt hab
  have hsort : sortByMtime dir = dir := sortByMtime_eq_self dir hle
  have hnd : dir.Nodup := nodup_of_mtime_sorted hsorted
  have hamt : ((dir.length : Int) - capacityBound cfg).toNat =
      dir.length - (capacityBound cfg).toNat := by omega
  have h1 : cleanupTick cfg (some free) dir =
      dir.drop (max (dir.length - (capacityBound cfg).toNat)
        (max 1 (dir.length / 10))) := by
    have hemp : dir.isEmpty = false := List.isEmpty_eq_false.mpr hne
    simp only [cleanupTick, hsort, hlow, hemp, Bool.not_false, Bool.and_self,
      if_true]
    rw [afterCap_eq cfg dir, hamt]
    exact filter_not_mem_take_drop hnd _ _
  refine ⟨h1, ?_⟩
  rw [h1, List.length_drop]
  have hlen1 : 1 ≤ dir.length := by
    cases dir
    · exact absurd rfl hne
    · simp
  have hq : dir.length / 10 ≤ dir.length := Nat.div_le_self _ _
  omega

/-- C4 witness: default configuration, 40 segments, free space 1.5 GiB. -/
theorem cleanup_low_space_overlap_witness :
    cleanupTick defaultCfg (some 1610612736) (mkDir 40) =
      (mkDir 40).drop (max ((mkDir 40).length - (capacityBound defaultCfg).toNat)
        (max 1 ((mkDir 40).length / 10))) ∧
    (mkDir 40).length - (cleanupTick defaultCfg (some 1610612736) (mkDir 40)).length =
      max ((mkDir 40).length - (capacityBound defaultCfg).toNat)
        (max 1 ((mkDir 40).length / 10)) :=
  cleanup_low_space_overlap defaultCfg (mkDir 40) 1610612736 (mkDir_pairwise 40)
    (by decide) (by decide) (by decide)

/-! ### Claim C2: assembly windowing -/

/-- C2: with segments of chronological indices `1..N` in the buffer and a
positive requested duration, `needed_segments` is at least 1 and the
chosen manifest window is exactly the segments
`N - min(m, N) + 1 .. N` in ascending chronological order — the last
`m` segments when `m ≤ N`, and all `N` segments when `m > N` — and
assembly succeeds (returns the output path) whenever the fast
concatenation succeeds, never failing merely because `m > N`. -/
theorem save_clip_windowing (cfg : Config) (env : Env) (d : Int) (N : Nat)
    (hd : 0 < d) (hdir : env.dir = mkDir N) (hN : 1 ≤ N) (hfloor : floorOK env) :
    1 ≤ (neededSegments d cfg.segment_time).toNat ∧
    chosenFor cfg env.dir d =
      (List.range' (N - min (neededSegments d cfg.segment_time).toNat N + 1)
        (min (neededSegments d cfg.segment_time).toNat N)).map mkSeg ∧
    (env.fastOk = true →
      (save_clip cfg env (some d)).1 = some (outName env d)) := by
  have hm1 : (1 : Int) ≤ neededSegments d cfg.segment_time :=
    le_max_left _ _
  have hsort : sortByMtime (mkDir N) = mkDir N :=
    sortByMtime_eq_self _ ((mkDir_pairwise N).imp fun hab => le_of_lt hab)
  have hlenN : (mkDir N).length = N := by
    unfold mkDir
    rw [List.length_map, List.length_range']
  refine ⟨by omega, ?_, ?_⟩
  · unfold chosenFor listDescByMtime
    rw [hdir, hsort, List.take_reverse, List.reverse_reverse, hlenN]
    unfold mkDir
    rw [← List.map_drop, range'_drop]
    have e1 : 1 + (N - (neededSegments d cfg.segment_time).toNat) =
        N - min (neededSegments d cfg.segment_time).toNat N + 1 := by omega
    have e2 : N - (N - (neededSegments d cfg.segment_time).toNat) =
        min (neededSegments d cfg.segment_time).toNat N := by omega
    rw [e1, e2]
  · intro hfast
    have hresolve : resolveLength (some d) cfg.clip_length = d := by
      simp only [resolveLength]
      rw [if_neg (by omega)]
    have hsne : sortByMtime env.dir ≠ [] := by
      rw [hdir, hsort]
      intro hnil
      have hlen := congrArg List.length hnil
      rw [hlenN, List.length_nil] at hlen
      omega
    rcases henv : env.free? with _ | f
    · simp [save_clip, henv, hresolve, saveCore, listDescByMtime, hsne, hfast]
    · have hge : 300 * 1024 * 1024 ≤ f := hfloor f henv
      simp [save_clip, henv, hresolve, saveCore, listDescByMtime, hsne, hfast,
        Nat.not_lt.mpr hge]

/-- C2 witness: the specification's own scenario — default configuration,
15 segments `1..15`, `save(120)` choosing segments 4..15 in ascending
order. -/
theorem save_clip_windowing_witness :
    1 ≤ (neededSegments 120 defaultCfg.segment_time).toNat ∧
    chosenFor defaultCfg (mkDir 15) 120 =
      (List.range' (15 - min (neededSegments 120 defaultCfg.segment_time).toNat 15 + 1)
        (min (neededSegments 120 defaultCfg.segment_time).toNat 15)).map mkSeg ∧
    (true = true →
      (save_clip defaultCfg ⟨none, mkDir 15, true, true, "g", "t2"⟩ (some 120)).1 =
        some (outName ⟨none, mkDir 15, true, true, "g", "t2"⟩ 120)) :=
  save_clip_windowing defaultCfg ⟨none, mkDir 15, true, true, "g", "t2"⟩ 120 15
    (by decide) rfl (by decide) (fun f h => nomatch h)

/-! ### Claim C7: the re-encode fallback -/

/-- C7: when the stream-copy concat fails, `save_clip` invokes the
re-encode concat with the same manifest and the same output path; if the
re-encode succeeds the call signals success exactly as the fast path does
(notification plus returned clip path, equal to the fast-path result);
if the re-encode also fails the call returns the failure outcome
(`None`). -/
theorem save_clip_fallback (cfg : Config) (env : Env) (ls : Option Int)
    (hfast : env.fastOk = false) (hfloor : floorOK env) (hne : env.dir ≠ []) :
    Ev.runConcat ((chosenFor cfg env.dir (resolveLength ls cfg.clip_length)).map
        (fun s => s.path)) (outName env (resolveLength ls cfg.clip_length)) false ∈
      (save_clip cfg env ls).2 ∧
    Ev.runConcat ((chosenFor cfg env.dir (resolveLength ls cfg.clip_length)).map
        (fun s => s.path)) (outName env (resolveLength ls cfg.clip_length)) true ∈
      (save_clip cfg env ls).2 ∧
    (env.fallbackOk = true →
      (save_clip cfg env ls).1 =
          some (outName env (resolveLength ls cfg.clip_length)) ∧
      Ev.notifyEv (outName env (resolveLength ls cfg.clip_length)) ∈
        (save_clip cfg env ls).2 ∧
      (save_clip cfg env ls).1 =
        (save_clip cfg ⟨env.free?, env.dir, true, env.fallbackOk, env.title,
          env.ts⟩ ls).1) ∧
    (env.fallbackOk = false → (save_clip cfg env ls).1 = none) := by
  have hsne : sortByMtime env.dir ≠ [] := by
    intro hnil
    have hlen := congrArg List.length hnil
    rw [length_sortByMtime, List.length_nil] at hlen
    exact hne (List.length_eq_zero.mp hlen)
  by_cases hfb : env.fallbackOk = true
  · rcases henv : env.free? with _ | f
    · simp [save_clip, saveCore, henv, hsne, hfast, hfb, chosenFor,
        listDescByMtime, outName]
    · have hge : 300 * 1024 * 1024 ≤ f := hfloor f henv
      simp [save_clip, saveCore, henv, hsne, hfast, hfb, chosenFor,
        listDescByMtime, outName, Nat.not_lt.mpr hge]
  · have hfb2 : env.fallbackOk = false := by
      cases hb : env.fallbackOk
      · rfl
      · exact absurd hb hfb
    rcases henv : env.free? with _ | f
    · simp [save_clip, saveCore, henv, hsne, hfast, hfb2, chosenFor,
        listDescByMtime, outName]
    · have hge : 300 * 1024 * 1024 ≤ f := hfloor f henv
      simp [save_clip, saveCore, henv, hsne, hfast, hfb2, chosenFor,
        listDescByMtime, outName, Nat.not_lt.mpr hge]

/-- C7 witness: a two-segment buffer whose fast concat fails and whose
re-encode succeeds. -/
theorem save_clip_fallback_witness :
    Ev.runConcat ((chosenFor defaultCfg (mkDir 2)
        (resolveLength (some 25) defaultCfg.clip_length)).map (fun s => s.path))
      (outName ⟨none, mkDir 2, false, true, "w", "w7"⟩
        (resolveLength (some 25) defaultCfg.clip_length)) false ∈
      (save_clip defaultCfg ⟨none, mkDir 2, false, true, "w", "w7"⟩ (some 25)).2 ∧
    Ev.runConcat ((chosenFor defaultCfg (mkDir 2)
        (resolveLength (some 25) defaultCfg.clip_length)).map (fun s => s.path))
      (outName ⟨none, mkDir 2, false, true, "w", "w7"⟩
        (resolveLength (some 25) defaultCfg.clip_length)) true ∈
      (save_clip defaultCfg ⟨none, mkDir 2, false, true, "w", "w7"⟩ (some 25)).2 ∧
    (true = true →
      (save_clip defaultCfg ⟨none, mkDir 2, false, true, "w", "w7"⟩ (some 25)).1 =
          some (outName ⟨none, mkDir 2, false, true, "w", "w7"⟩
            (resolveLength (some 25) defaultCfg.clip_length)) ∧
      Ev.notifyEv (outName ⟨none, mkDir 2, false, true, "w", "w7"⟩
          (resolveLength (some 25) defaultCfg.clip_length)) ∈
        (save_clip defaultCfg ⟨none, mkDir 2, false, true, "w", "w7"⟩ (some 25)).2 ∧
      (save_clip defaultCfg ⟨none, mkDir 2, false, true, "w", "w7"⟩ (some 25)).1 =
        (save_clip defaultCfg ⟨none, mkDir 2, true, true, "w", "w7"⟩ (some 25)).1) ∧
    (true = false →
      (save_clip defaultCfg ⟨none, mkDir 2, false, true, "w", "w7"⟩ (some 25)).1 =
        none) :=
  save_clip_fallback defaultCfg ⟨none, mkDir 2, false, true, "w", "w7"⟩ (some 25)
    rfl (fun f h => nomatch h) (by decide)

end Clipper
